import Mathlib

/-!
Verification of `multipatch_convertor.py`: a single Python function that
converts ESRI Multipatch 3D building geometries into flat 2D polygons with a
scalar height attribute.

The embedding below mirrors the source function statement by statement.
Coordinates and heights are modelled as rationals (`ℚ`); the Python dict
`building_parts` (insertion ordered) is an association list; `raise` / `print`
are modelled by an exception-plus-output-log structure `Proc` whose `bind`
short-circuits on an error, exactly as Python's `raise` transfers control.
The GeoPandas calls `to_crs` and `to_file` are thin library pass-throughs:
`to_crs` is modelled by its library contract (reproject every geometry with the
projection map and set the CRS to the target), `to_file` by recording the file
that would be written.
-/

deriving instance DecidableEq for Except

namespace MPC

abbrev Coord := ℚ

/-- One (x, y, z) vertex of a multipatch ring. -/
structure Point3 where
  x : Coord
  y : Coord
  z : Coord
deriving DecidableEq, Repr

instance : Inhabited Point3 := ⟨⟨0, 0, 0⟩⟩

/-- A polygon ring: the ordered vertex list `multipatch_polygon[0]`
(the exterior ring, the only ring the source reads). -/
abbrev Ring := List Point3

/-- One input feature of the GeoJSON structure `gdf_gj`: its properties
mapping and the exterior rings of `feature['geometry']['coordinates']`. -/
structure Feature where
  properties : List (String × String)
  rings : List Ring
deriving DecidableEq, Repr

/-- The input `geopandas.GeoDataFrame`: its CRS (possibly unset) and its
features. -/
structure GeoDataFrame where
  crs : Option String
  features : List Feature
deriving DecidableEq, Repr

/-- One output feature built in the loop: `properties.copy()` plus the
`height` scalar and the flat `Polygon(xy_coords)` geometry. -/
structure OutFeature where
  properties : List (String × String)
  height : Coord
  geometry : List (Coord × Coord)
deriving DecidableEq, Repr

/-- The output GeoDataFrame `new_gdf_gj`. -/
structure OutGDF where
  crs : Option String
  features : List OutFeature
deriving DecidableEq, Repr

/-- The two `NameError` values the source raises. -/
inductive Err where
  | wrongUnits
  | wrongFormat
deriving DecidableEq, Repr

/-- The two diagnostic messages of the `print` statements that textually
follow each `raise`. -/
inductive Diag where
  | unitsMsg
  | formatMsg
deriving DecidableEq, Repr

/-- A computation that may raise a `NameError` and may print diagnostics:
the result together with the list of printed messages. -/
structure Proc (α : Type) where
  result : Except Err α
  log : List Diag

/-- Return a value, printing nothing. -/
def Proc.pure (a : α) : Proc α := ⟨.ok a, []⟩

/-- Sequencing: as in Python, once an exception has been raised the
following statements do not execute (and print nothing). -/
def Proc.bind (p : Proc α) (f : α → Proc β) : Proc β :=
  match p.result with
  | .error e => ⟨.error e, p.log⟩
  | .ok a => ⟨(f a).result, p.log ++ (f a).log⟩

/-- `raise NameError(...)`. -/
def Proc.throw (e : Err) : Proc α := ⟨.error e, []⟩

/-- `print(...)` of a diagnostic message. -/
def Proc.emit (d : Diag) : Proc Unit := ⟨.ok (), [d]⟩

/-- The ring filter of line 72:
`len(multipatch_polygon[0]) > 3 and len(set([c[2] for c in multipatch_polygon[0]])) == 1`. -/
def qualifies (r : Ring) : Bool :=
  decide (3 < r.length) && decide ((r.map Point3.z).dedup.length = 1)

/-- `z_coordinate = multipatch_polygon[0][0][2]` (line 73). -/
def zCoord (r : Ring) : Coord := (r.headD default).z

/-- `xy_coordinates = tuple((c[0],c[1]) for c in multipatch_polygon[0])` (line 75). -/
def xyOf (r : Ring) : List (Coord × Coord) := r.map (fun p => (p.x, p.y))

/-- The `building_parts` dictionary: keys in insertion order, each key the
(x, y) vertex sequence of a building part, each value the list of Z
coordinates recorded for that key. -/
abbrev Parts := List (List (Coord × Coord) × List Coord)

/-- Lines 76-79: append `z` to the existing entry for `key`, or add a new
entry `key ↦ [z]` (Python dicts preserve insertion order). -/
def insertPart (bp : Parts) (key : List (Coord × Coord)) (z : Coord) : Parts :=
  match bp with
  | [] => [(key, [z])]
  | (k, zs) :: rest =>
      if k = key then (k, zs ++ [z]) :: rest
      else (k, zs) :: insertPart rest key z

/-- `min_h` seed of lines 54-57: 9000 for meters, 30000 otherwise. -/
def sentinel (z_unit_in : String) : Coord :=
  if z_unit_in = "m" then 9000 else 30000

/-- One iteration of the ring loop (lines 71-79): a qualifying ring updates
the running minimum and the `building_parts` dictionary, everything else is
skipped. -/
def scanStep (st : Parts × Coord) (r : Ring) : Parts × Coord :=
  if qualifies r then
    (insertPart st.1 (xyOf r) (zCoord r), min st.2 (zCoord r))
  else st

/-- The whole ring loop of one feature: final `building_parts` and `min_h`. -/
def scanRings (z_unit_in : String) (rings : List Ring) : Parts × Coord :=
  rings.foldl scanStep ([], sentinel z_unit_in)

/-- Python's `max` over a (nonempty) list. -/
def listMax (l : List Coord) : Coord := l.foldl max (l.headD 0)

/-- Lines 85-98: one output feature per `building_parts` entry, carrying the
source feature's properties, the maximum recorded Z as height, and the flat
(x, y) polygon as geometry. -/
def makeFeatures (props : List (String × String)) (bp : Parts) : List OutFeature :=
  bp.map (fun kz => { properties := props, height := listMax kz.2, geometry := kz.1 })

/-- Lines 100-103: in relative mode subtract `min_h` from every height. -/
def adjustRelative (relative_h : Bool) (min_h : Coord) (fs : List OutFeature) :
    List OutFeature :=
  if relative_h then fs.map (fun f => { f with height := f.height - min_h }) else fs

/-- Lines 105-113: feet→meters multiplies by 0.3048, meters is a no-op, any
other unit raises `NameError('wrongUnits')` followed (textually) by a
diagnostic print. -/
def convertUnits (z_unit_in : String) (fs : List OutFeature) : Proc (List OutFeature) :=
  if z_unit_in = "ft" then
    Proc.pure (fs.map (fun f => { f with height := f.height * (3048 / 10000 : ℚ) }))
  else if z_unit_in = "m" then
    Proc.pure fs
  else
    Proc.bind (Proc.throw Err.wrongUnits : Proc Unit) (fun _ =>
      Proc.bind (Proc.emit Diag.unitsMsg) (fun _ => Proc.pure fs))

/-- The body of the feature loop (lines 49-113) for one feature: scan the
rings, build the output features, adjust and convert heights. -/
def processFeature (z_unit_in : String) (relative_h : Bool) (f : Feature) :
    Proc (List OutFeature) :=
  let scanned := scanRings z_unit_in f.rings
  convertUnits z_unit_in
    (adjustRelative relative_h scanned.2 (makeFeatures f.properties scanned.1))

/-- The feature loop (lines 49-116): `feature_list` accumulates each
feature's `splitted_feature_list` in order. -/
def processFeatures (z_unit_in : String) (relative_h : Bool) :
    List Feature → Proc (List OutFeature)
  | [] => Proc.pure []
  | f :: fs =>
      Proc.bind (processFeature z_unit_in relative_h f) (fun out =>
        Proc.bind (processFeatures z_unit_in relative_h fs) (fun rest =>
          Proc.pure (out ++ rest)))

/-- GeoPandas `to_crs` (line 125), modelled by its library contract: apply
the projection map `transform` to every geometry vertex and set the CRS to
the target. -/
def to_crs (transform : Coord × Coord → Coord × Coord) (target : String)
    (g : OutGDF) : OutGDF :=
  { crs := some target,
    features := g.features.map (fun f => { f with geometry := f.geometry.map transform }) }

/-- A file written by GeoPandas `to_file`, modelled by recording its name,
driver and contents. -/
structure SavedFile where
  name : String
  driver : String
  gdf : OutGDF
deriving DecidableEq, Repr

/-- What a call produces: the returned GeoDataFrame (Python returns `None`
on the save path) and the files written. -/
structure ConvOutput where
  returned : Option OutGDF
  files : List SavedFile
deriving DecidableEq, Repr

/-- Lines 128-139: save to GeoJSON or Shapefile, raise
`NameError('wrongFormat')` (followed textually by a diagnostic print) on any
other format, or return the GeoDataFrame when `save` is false. -/
def saveOrReturn (save : Bool) (path filename out_format : String) (g : OutGDF) :
    Proc ConvOutput :=
  if save then
    if out_format = "geojson" then
      Proc.pure ⟨none, [⟨path ++ filename ++ ".geojson", "GeoJSON", g⟩]⟩
    else if out_format = "shp" then
      Proc.pure ⟨none, [⟨path ++ filename ++ ".shp", "ESRI Shapefile", g⟩]⟩
    else
      Proc.bind (Proc.throw Err.wrongFormat : Proc Unit) (fun _ =>
        Proc.bind (Proc.emit Diag.formatMsg) (fun _ => Proc.pure ⟨none, []⟩))
  else
    Proc.pure ⟨some g, []⟩

/-- The whole function `multipatch_convertor`. `transform` stands for the
projection map onto EPSG:4326 that GeoPandas applies at line 125. -/
def multipatch_convertor (gdf : GeoDataFrame)
    (transform : Coord × Coord → Coord × Coord)
    (z_unit_in : String) (relative_h : Bool) (save : Bool)
    (path filename out_format : String) : Proc ConvOutput :=
  Proc.bind (processFeatures z_unit_in relative_h gdf.features) (fun feature_list =>
    saveOrReturn save path filename out_format
      (to_crs transform "epsg:4326" ⟨gdf.crs, feature_list⟩))

/-- The list of Z values recorded for `key` in the dictionary (`[]` when the
key is absent; entries are never empty, see `scan_values_nonempty`). -/
def lookupZ (key : List (Coord × Coord)) : Parts → List Coord
  | [] => []
  | (k, zs) :: rest => if k = key then zs else lookupZ key rest

/-- The heights of the output features a `Proc` produced (`[]` on error). -/
def resultHeights (p : Proc (List OutFeature)) : List Coord :=
  match p.result with
  | .ok fs => fs.map OutFeature.height
  | .error _ => []

/-! Concrete inputs used to instantiate the claims' scenarios. -/

/-- A top face: triangle ring, 4 points, constant Z = 10. -/
def topRing : Ring := [⟨0, 0, 10⟩, ⟨1, 0, 10⟩, ⟨0, 1, 10⟩, ⟨0, 0, 10⟩]

/-- The matching bottom face: same (x, y) sequence, constant Z = 0. -/
def botRing : Ring := [⟨0, 0, 0⟩, ⟨1, 0, 0⟩, ⟨0, 1, 0⟩, ⟨0, 0, 0⟩]

/-- A wall face: 5 points with mixed Z values. -/
def wallRing : Ring := [⟨0, 0, 0⟩, ⟨1, 0, 0⟩, ⟨1, 0, 10⟩, ⟨0, 0, 10⟩, ⟨0, 0, 0⟩]

/-- The spec's top/bottom/wall example feature. -/
def exFeature : Feature := ⟨[("name", "bldg")], [topRing, botRing, wallRing]⟩

/-- The rings of `exFeature`. -/
def exRings : List Ring := [topRing, botRing, wallRing]

/-- A one-feature input GeoDataFrame in a projected CRS. -/
def gdfEx : GeoDataFrame := ⟨some "epsg:2263", [exFeature]⟩

/-- An input GeoDataFrame with no features at all. -/
def gdfEmpty : GeoDataFrame := ⟨some "epsg:2263", []⟩

/-- A qualifying ring whose constant Z (10000) exceeds the meters
sentinel 9000. -/
def highRing : Ring :=
  [⟨0, 0, 10000⟩, ⟨1, 0, 10000⟩, ⟨0, 1, 10000⟩, ⟨0, 0, 10000⟩]

/-- Building part A: bottom at Z = 5 and top at Z = 10 on one footprint. -/
def aBotRing : Ring := [⟨0, 0, 5⟩, ⟨1, 0, 5⟩, ⟨0, 1, 5⟩, ⟨0, 0, 5⟩]

/-- Top ring of part A. -/
def aTopRing : Ring := [⟨0, 0, 10⟩, ⟨1, 0, 10⟩, ⟨0, 1, 10⟩, ⟨0, 0, 10⟩]

/-- Building part B: bottom at Z = 5 and top at Z = 15 on another footprint. -/
def bBotRing : Ring := [⟨10, 0, 5⟩, ⟨11, 0, 5⟩, ⟨10, 1, 5⟩, ⟨10, 0, 5⟩]

/-- Top ring of part B. -/
def bTopRing : Ring := [⟨10, 0, 15⟩, ⟨11, 0, 15⟩, ⟨10, 1, 15⟩, ⟨10, 0, 15⟩]

/-- A feature with two building parts (max Z 10 and 15, minimum Z 5). -/
def twoPartFeature : Feature :=
  ⟨[("name", "two")], [aBotRing, aTopRing, bBotRing, bTopRing]⟩

/-- A qualifying ring at constant Z = 100 (feet input scenario). -/
def ftRing : Ring := [⟨0, 0, 100⟩, ⟨1, 0, 100⟩, ⟨0, 1, 100⟩, ⟨0, 0, 100⟩]

/-- A one-feature GeoDataFrame whose only ring is `ftRing`. -/
def gdfFt : GeoDataFrame := ⟨some "epsg:2263", [⟨[("name", "ft")], [ftRing]⟩]⟩

end MPC

namespace MPC

theorem Proc.bind_of_ok {α β : Type} {p : Proc α} {a : α} (f : α → Proc β)
    (h : p.result = .ok a) :
    Proc.bind p f = ⟨(f a).result, p.log ++ (f a).log⟩ := by
  simp [Proc.bind, h]

theorem Proc.bind_of_error {α β : Type} {p : Proc α} {e : Err} (f : α → Proc β)
    (h : p.result = .error e) :
    Proc.bind p f = ⟨.error e, p.log⟩ := by
  simp [Proc.bind, h]

theorem lookupZ_insertPart (bp : Parts) (k key : List (Coord × Coord)) (z : Coord) :
    lookupZ key (insertPart bp k z)
      = if k = key then lookupZ key bp ++ [z] else lookupZ key bp := by
  induction bp with
  | nil =>
      by_cases h : k = key <;> simp [insertPart, lookupZ, h]
  | cons kz rest ih =>
      obtain ⟨k0, zs0⟩ := kz
      by_cases h0 : k0 = k
      · subst h0
        by_cases h : k0 = key <;> simp [insertPart, lookupZ, h]
      · by_cases h : k0 = key
        · subst h
          have hk : ¬ k = k0 := fun hc => h0 hc.symm
          simp [insertPart, lookupZ, h0, hk]
        · simp [insertPart, lookupZ, h0, h, ih]

theorem scan_lookup (rings : List Ring) :
    ∀ (bp : Parts) (m : Coord) (key : List (Coord × Coord)),
    lookupZ key (rings.foldl scanStep (bp, m)).1
      = lookupZ key bp
        ++ (rings.filter (fun r => qualifies r && decide (xyOf r = key))).map zCoord := by
  induction rings with
  | nil => intro bp m key; simp
  | cons r rest ih =>
      intro bp m key
      by_cases hq : qualifies r
      · by_cases hk : xyOf r = key
        · simp [scanStep, hq, hk, ih, lookupZ_insertPart]
        · simp [scanStep, hq, hk, ih, lookupZ_insertPart]
      · simp [scanStep, hq, ih]

theorem scan_min (rings : List Ring) :
    ∀ (bp : Parts) (m : Coord),
    (rings.foldl scanStep (bp, m)).2
      = ((rings.filter qualifies).map zCoord).foldl min m := by
  induction rings with
  | nil => intro bp m; simp
  | cons r rest ih =>
      intro bp m
      by_cases hq : qualifies r
      · simp [scanStep, hq, ih]
      · simp [scanStep, hq, ih]

theorem scan_parts_irrel_min (rings : List Ring) :
    ∀ (bp : Parts) (m m' : Coord),
    (rings.foldl scanStep (bp, m)).1 = (rings.foldl scanStep (bp, m')).1 := by
  induction rings with
  | nil => intro bp m m'; rfl
  | cons r rest ih =>
      intro bp m m'
      by_cases hq : qualifies r
      · simp only [List.foldl_cons, scanStep, hq, if_pos]
        exact ih _ _ _
      · simp only [List.foldl_cons, scanStep, hq, Bool.false_eq_true, if_neg,
          not_false_eq_true]
        exact ih _ _ _

theorem foldl_min_le_init (l : List Coord) : ∀ a : Coord, l.foldl min a ≤ a := by
  induction l with
  | nil => intro a; simp
  | cons x xs ih =>
      intro a
      exact le_trans (ih (min a x)) (min_le_left a x)

theorem foldl_min_le_mem (l : List Coord) :
    ∀ (a z : Coord), z ∈ l → l.foldl min a ≤ z := by
  induction l with
  | nil => intro a z hz; simp at hz
  | cons x xs ih =>
      intro a z hz
      rcases List.mem_cons.mp hz with h | h
      · subst h
        exact le_trans (foldl_min_le_init xs (min a z)) (min_le_right a z)
      · exact ih (min a x) z h

theorem foldl_min_eq_init_or_mem (l : List Coord) :
    ∀ a : Coord, l.foldl min a = a ∨ l.foldl min a ∈ l := by
  induction l with
  | nil => intro a; left; rfl
  | cons x xs ih =>
      intro a
      rcases ih (min a x) with h | h
      · rw [List.foldl_cons, h]
        rcases min_choice a x with hm | hm
        · left; exact hm
        · right; rw [hm]; exact List.mem_cons_self x xs
      · right; exact List.mem_cons_of_mem x h

theorem init_le_foldl_max (l : List Coord) : ∀ a : Coord, a ≤ l.foldl max a := by
  induction l with
  | nil => intro a; simp
  | cons x xs ih =>
      intro a
      exact le_trans (le_max_left a x) (ih (max a x))

theorem mem_le_foldl_max (l : List Coord) :
    ∀ (a z : Coord), z ∈ l → z ≤ l.foldl max a := by
  induction l with
  | nil => intro a z hz; simp at hz
  | cons x xs ih =>
      intro a z hz
      rcases List.mem_cons.mp hz with h | h
      · subst h
        exact le_trans (le_max_right a z) (init_le_foldl_max xs (max a z))
      · exact ih (max a x) z h

theorem foldl_max_eq_init_or_mem (l : List Coord) :
    ∀ a : Coord, l.foldl max a = a ∨ l.foldl max a ∈ l := by
  induction l with
  | nil => intro a; left; rfl
  | cons x xs ih =>
      intro a
      rcases ih (max a x) with h | h
      · rw [List.foldl_cons, h]
        rcases max_choice a x with hm | hm
        · left; exact hm
        · right; rw [hm]; exact List.mem_cons_self x xs
      · right; exact List.mem_cons_of_mem x h

theorem listMax_mem {l : List Coord} (h : l ≠ []) : listMax l ∈ l := by
  cases l with
  | nil => exact absurd rfl h
  | cons x xs =>
      unfold listMax
      rcases foldl_max_eq_init_or_mem (x :: xs) (List.headD (x :: xs) 0) with h1 | h1
      · rw [h1]; exact List.mem_cons_self x xs
      · exact h1

theorem le_listMax {l : List Coord} {z : Coord} (h : z ∈ l) : z ≤ listMax l :=
  mem_le_foldl_max l (l.headD 0) z h

theorem insertPart_values_nonempty (bp : Parts) (k : List (Coord × Coord)) (z : Coord)
    (h : ∀ kz ∈ bp, kz.2 ≠ []) : ∀ kz ∈ insertPart bp k z, kz.2 ≠ [] := by
  induction bp with
  | nil =>
      intro kz hkz
      simp [insertPart] at hkz
      subst hkz; simp
  | cons kz0 rest ih =>
      obtain ⟨k0, zs0⟩ := kz0
      intro kz hkz
      by_cases h0 : k0 = k
      · simp [insertPart, h0] at hkz
        rcases hkz with hkz | hkz
        · subst hkz
          simp
        · exact h kz (List.mem_cons_of_mem _ hkz)
      · simp [insertPart, h0] at hkz
        rcases hkz with hkz | hkz
        · subst hkz
          exact h (k0, zs0) (List.mem_cons_self _ _)
        · exact ih (fun kz' hkz' => h kz' (List.mem_cons_of_mem _ hkz')) kz hkz

theorem scan_values_nonempty (rings : List Ring) :
    ∀ (bp : Parts) (m : Coord), (∀ kz ∈ bp, kz.2 ≠ []) →
    ∀ kz ∈ (rings.foldl scanStep (bp, m)).1, kz.2 ≠ [] := by
  induction rings with
  | nil => intro bp m h; exact h
  | cons r rest ih =>
      intro bp m h
      by_cases hq : qualifies r
      · simp only [List.foldl_cons, scanStep, hq, if_pos]
        exact ih _ _ (insertPart_values_nonempty bp (xyOf r) (zCoord r) h)
      · simp only [List.foldl_cons, scanStep, hq, if_neg, Bool.false_eq_true,
          not_false_eq_true]
        exact ih _ _ h

theorem mem_keys_iff_lookupZ (bp : Parts) (h : ∀ kz ∈ bp, kz.2 ≠ [])
    (key : List (Coord × Coord)) :
    key ∈ bp.map Prod.fst ↔ lookupZ key bp ≠ [] := by
  induction bp with
  | nil => simp [lookupZ]
  | cons kz0 rest ih =>
      obtain ⟨k0, zs0⟩ := kz0
      by_cases h0 : k0 = key
      · subst h0
        have hmem : k0 ∈ ((k0, zs0) :: rest).map Prod.fst := by simp
        have hlz : lookupZ k0 ((k0, zs0) :: rest) = zs0 := by simp [lookupZ]
        rw [hlz]
        exact ⟨fun _ => h (k0, zs0) (List.mem_cons_self _ _), fun _ => hmem⟩
      · simp only [List.map_cons, List.mem_cons, lookupZ, if_neg h0]
        rw [← ih (fun kz hkz => h kz (List.mem_cons_of_mem _ hkz))]
        constructor
        · intro hc
          rcases hc with hc | hc
          · exact absurd hc.symm h0
          · exact hc
        · intro hc; right; exact hc

theorem convertUnits_invalid (zu : String) (fs : List OutFeature)
    (h1 : zu ≠ "ft") (h2 : zu ≠ "m") :
    convertUnits zu fs = ⟨.error .wrongUnits, []⟩ := by
  simp [convertUnits, h1, h2, Proc.bind, Proc.throw]

theorem processFeature_result_invalid (zu : String) (rel : Bool) (f : Feature)
    (h1 : zu ≠ "m") (h2 : zu ≠ "ft") :
    (processFeature zu rel f).result = .error .wrongUnits := by
  simp [processFeature, convertUnits_invalid zu _ h2 h1]

theorem processFeature_ok (zu : String) (rel : Bool) (f : Feature)
    (h : zu = "m" ∨ zu = "ft") :
    ∃ out, (processFeature zu rel f).result = .ok out := by
  rcases h with h | h <;> subst h <;> exact ⟨_, rfl⟩

theorem processFeature_log (zu : String) (rel : Bool) (f : Feature) :
    (processFeature zu rel f).log = [] := by
  by_cases h1 : zu = "ft"
  · subst h1; rfl
  · by_cases h2 : zu = "m"
    · subst h2; rfl
    · simp [processFeature, convertUnits_invalid zu _ h1 h2]

theorem processFeatures_log (zu : String) (rel : Bool) :
    ∀ l : List Feature, (processFeatures zu rel l).log = [] := by
  intro l
  induction l with
  | nil => rfl
  | cons f fs ih =>
      rw [processFeatures]
      cases hp : (processFeature zu rel f).result with
      | error e =>
          rw [Proc.bind_of_error _ hp]
          exact processFeature_log zu rel f
      | ok a =>
          rw [Proc.bind_of_ok _ hp]
          cases hr : (processFeatures zu rel fs).result with
          | error e =>
              rw [Proc.bind_of_error _ hr]
              simp [processFeature_log, ih]
          | ok b =>
              rw [Proc.bind_of_ok _ hr]
              simp [processFeature_log, ih, Proc.pure]

theorem processFeatures_ok (zu : String) (rel : Bool) (h : zu = "m" ∨ zu = "ft") :
    ∀ l : List Feature, ∃ outs, (processFeatures zu rel l).result = .ok outs := by
  intro l
  induction l with
  | nil => exact ⟨[], rfl⟩
  | cons f fs ih =>
      obtain ⟨a, ha⟩ := processFeature_ok zu rel f h
      obtain ⟨b, hb⟩ := ih
      refine ⟨a ++ b, ?_⟩
      rw [processFeatures, Proc.bind_of_ok _ ha, Proc.bind_of_ok _ hb]
      rfl

theorem processFeatures_invalid (zu : String) (rel : Bool) (f : Feature)
    (fs : List Feature) (h1 : zu ≠ "m") (h2 : zu ≠ "ft") :
    (processFeatures zu rel (f :: fs)).result = .error .wrongUnits := by
  rw [processFeatures,
    Proc.bind_of_error _ (processFeature_result_invalid zu rel f h1 h2)]

theorem saveOrReturn_log (save : Bool) (path filename out_format : String)
    (g : OutGDF) : (saveOrReturn save path filename out_format g).log = [] := by
  by_cases hs : save
  · by_cases h1 : out_format = "geojson"
    · simp [saveOrReturn, hs, h1, Proc.pure]
    · by_cases h2 : out_format = "shp"
      · simp [saveOrReturn, hs, h1, h2, Proc.pure]
      · simp [saveOrReturn, hs, h1, h2, Proc.bind, Proc.throw]
  · simp [saveOrReturn, hs, Proc.pure]

/-- C1: during the ring scan of a feature, the Z values recorded under any
(x, y) key are exactly those of the rings with more than 3 points and a
single distinct Z value whose (x, y) sequence is that key — and a key is
present in `building_parts` precisely when some such qualifying ring has
that (x, y) sequence. Rings with fewer than 4 points or with several
distinct Z values (wall faces) contribute to no group, hence to no output
feature. -/
theorem c1_ring_kept_iff_qualifying (z_unit_in : String) (rings : List Ring)
    (key : List (Coord × Coord)) :
    lookupZ key (scanRings z_unit_in rings).1
      = (rings.filter (fun r =>
          decide (3 < r.length) && decide ((r.map Point3.z).dedup.length = 1)
            && decide (xyOf r = key))).map zCoord
    ∧ (key ∈ (scanRings z_unit_in rings).1.map Prod.fst
        ↔ ∃ r ∈ rings, (3 < r.length ∧ (r.map Point3.z).dedup.length = 1)
            ∧ xyOf r = key) := by
  have h1 := scan_lookup rings [] (sentinel z_unit_in) key
  have hinv := scan_values_nonempty rings [] (sentinel z_unit_in) (by simp)
  have heq : lookupZ key (scanRings z_unit_in rings).1
      = (rings.filter (fun r =>
          decide (3 < r.length) && decide ((r.map Point3.z).dedup.length = 1)
            && decide (xyOf r = key))).map zCoord := by
    rw [scanRings, h1]
    simp only [lookupZ, List.nil_append]
    congr 1
  refine ⟨heq, ?_⟩
  rw [scanRings, mem_keys_iff_lookupZ _ hinv key, ← scanRings, heq]
  simp only [ne_eq, List.map_eq_nil_iff, List.filter_eq_nil_iff, not_forall,
    Bool.and_eq_true, decide_eq_true_eq, not_not, exists_prop]

/-- C2: every surviving ring group yields exactly one output feature (as
many outputs as groups, one per group), carrying the source feature's
properties, the flat (x, y) polygon of the group key as geometry, and the
maximum recorded Z of the group as height; on the spec's top/bottom/wall
example, the full conversion emits exactly one polygon with height 10. -/
theorem c2_one_output_per_group (props : List (String × String)) (zu : String)
    (rings : List Ring) :
    ((makeFeatures props (scanRings zu rings).1).length
        = (scanRings zu rings).1.length)
    ∧ (∀ kz ∈ (scanRings zu rings).1,
        ∃ o ∈ makeFeatures props (scanRings zu rings).1,
          o.properties = props ∧ o.geometry = kz.1
            ∧ o.height ∈ kz.2 ∧ ∀ z ∈ kz.2, z ≤ o.height)
    ∧ (multipatch_convertor gdfEx id "m" false false "./" "output" "geojson").result
        = .ok ⟨some ⟨some "epsg:4326",
            [⟨[("name", "bldg")], 10, [(0, 0), (1, 0), (0, 1), (0, 0)]⟩]⟩, []⟩ := by
  refine ⟨by simp [makeFeatures], ?_, by decide⟩
  intro kz hkz
  have hne : kz.2 ≠ [] :=
    scan_values_nonempty rings [] (sentinel zu) (by simp) kz hkz
  refine ⟨⟨props, listMax kz.2, kz.1⟩, ?_, rfl, rfl, listMax_mem hne,
    fun z hz => le_listMax hz⟩
  exact List.mem_map_of_mem _ hkz

/-- C3 counterexample: on an input collection with no features, an invalid
height unit does not make the conversion fail — the units check sits inside
the feature loop, so the call returns an (empty) result untouched by any
error. -/
theorem c3_counterexample :
    (multipatch_convertor gdfEmpty id "yd" false false "./" "output" "geojson").result
      = .ok ⟨some ⟨some "epsg:4326", []⟩, []⟩ := by decide

/-- C3 (amended): for every input collection with at least one feature,
any `z_unit_in` other than "m" or "ft" makes the conversion fail with
`NameError('wrongUnits')`. -/
theorem c3_invalid_units_error (gdf : GeoDataFrame)
    (transform : Coord × Coord → Coord × Coord) (zu : String) (rel save : Bool)
    (path fn fmt : String) (hne : gdf.features ≠ []) (h1 : zu ≠ "m")
    (h2 : zu ≠ "ft") :
    (multipatch_convertor gdf transform zu rel save path fn fmt).result
      = .error .wrongUnits := by
  obtain ⟨f, fs, hf⟩ := List.exists_cons_of_ne_nil hne
  unfold multipatch_convertor
  rw [hf, Proc.bind_of_error _ (processFeatures_invalid zu rel f fs h1 h2)]

/-- C3 witness: the amended theorem applied to a one-feature collection
with `z_unit_in = "yd"`. -/
theorem c3_invalid_units_error_witness :
    gdfEx.features ≠ [] ∧ ("yd" : String) ≠ "m" ∧ ("yd" : String) ≠ "ft"
    ∧ (multipatch_convertor gdfEx id "yd" false false "./" "output" "geojson").result
        = .error .wrongUnits :=
  ⟨by decide, by decide, by decide,
    c3_invalid_units_error gdfEx id "yd" false false "./" "output" "geojson"
      (by decide) (by decide) (by decide)⟩

/-- C4 counterexample: with `save=False`, an invalid `out_format` does not
make the conversion fail — the format check is only reached on the save
path, so the call returns the GeoDataFrame normally. -/
theorem c4_counterexample :
    (multipatch_convertor gdfEmpty id "m" false false "./" "output" "kml").result
      = .ok ⟨some ⟨some "epsg:4326", []⟩, []⟩ := by decide

/-- C4 (amended): for every call with `save=True` and a valid height unit,
any `out_format` other than "geojson" or "shp" makes the conversion fail
with `NameError('wrongFormat')`. (A valid unit is needed because with an
invalid unit and a nonempty collection `wrongUnits` preempts the format
check.) -/
theorem c4_invalid_format_error (gdf : GeoDataFrame)
    (transform : Coord × Coord → Coord × Coord) (zu : String) (rel : Bool)
    (path fn fmt : String) (hu : zu = "m" ∨ zu = "ft") (h1 : fmt ≠ "geojson")
    (h2 : fmt ≠ "shp") :
    (multipatch_convertor gdf transform zu rel true path fn fmt).result
      = .error .wrongFormat := by
  obtain ⟨outs, houts⟩ := processFeatures_ok zu rel hu gdf.features
  unfold multipatch_convertor
  rw [Proc.bind_of_ok _ houts]
  simp [saveOrReturn, h1, h2, Proc.bind, Proc.throw]

/-- C4 witness: the amended theorem applied with `out_format = "kml"`. -/
theorem c4_invalid_format_error_witness :
    (("m" : String) = "m" ∨ ("m" : String) = "ft")
    ∧ ("kml" : String) ≠ "geojson" ∧ ("kml" : String) ≠ "shp"
    ∧ (multipatch_convertor gdfEx id "m" false true "./" "output" "kml").result
        = .error .wrongFormat :=
  ⟨Or.inl rfl, by decide, by decide,
    c4_invalid_format_error gdfEx id "m" false "./" "output" "kml"
      (Or.inl rfl) (by decide) (by decide)⟩

/-- C5 counterexample: a feature whose only qualifying ring sits at
Z = 10000 > 9000 (meters): the running minimum stays at the sentinel 9000,
not at the true minimum 10000 of the qualifying rings, and in relative
mode the emitted height is 1000 instead of max − trueMin = 0. -/
theorem c5_sentinel_counterexample :
    (scanRings "m" [highRing]).2 = 9000
    ∧ ([highRing].filter qualifies).map zCoord = [10000]
    ∧ resultHeights (processFeature "m" true ⟨[], [highRing]⟩) = [1000] := by
  refine ⟨by decide, by decide, ?_⟩
  simp only [processFeature, scanRings, scanStep, sentinel, highRing, List.foldl,
    makeFeatures, adjustRelative, convertUnits, resultHeights, Proc.pure, List.map]
  norm_num [qualifies, zCoord, xyOf, insertPart, listMax, highRing]
  simp

/-- C5 (amended): provided every qualifying ring's Z is at most the seed
sentinel (9000 for "m", 30000 otherwise) and at least one ring qualifies,
the running minimum is exactly the minimum Z over the feature's qualifying
rings (it is one of them and bounds them all below), and in relative mode
every emitted height is its group's maximum recorded Z minus that running
minimum. -/
theorem c5_min_tracking (zu : String) (props : List (String × String))
    (rings : List Ring)
    (hub : ∀ r ∈ rings, qualifies r = true → zCoord r ≤ sentinel zu)
    (hne : ∃ r ∈ rings, qualifies r = true) :
    ((scanRings zu rings).2 ∈ (rings.filter qualifies).map zCoord
      ∧ ∀ z ∈ (rings.filter qualifies).map zCoord, (scanRings zu rings).2 ≤ z)
    ∧ ∀ o ∈ adjustRelative true (scanRings zu rings).2
          (makeFeatures props (scanRings zu rings).1),
        ∃ kz ∈ (scanRings zu rings).1,
          o.height = listMax kz.2 - (scanRings zu rings).2 := by
  have hmin : (scanRings zu rings).2
      = ((rings.filter qualifies).map zCoord).foldl min (sentinel zu) :=
    scan_min rings [] (sentinel zu)
  constructor
  · constructor
    · rcases foldl_min_eq_init_or_mem ((rings.filter qualifies).map zCoord)
          (sentinel zu) with h | h
      · obtain ⟨r, hr, hq⟩ := hne
        have hz : zCoord r ∈ (rings.filter qualifies).map zCoord :=
          List.mem_map_of_mem _ (List.mem_filter.mpr ⟨hr, hq⟩)
        have hle : ((rings.filter qualifies).map zCoord).foldl min (sentinel zu)
            ≤ zCoord r := foldl_min_le_mem _ _ _ hz
        rw [h] at hle
        have hzs : zCoord r = sentinel zu := le_antisymm (hub r hr hq) hle
        rw [hmin, h, ← hzs]
        exact hz
      · rw [hmin]; exact h
    · intro z hz
      rw [hmin]
      exact foldl_min_le_mem _ _ _ hz
  · intro o ho
    simp only [adjustRelative, if_pos, makeFeatures, List.map_map,
      List.mem_map] at ho
    obtain ⟨kz, hkz, ho⟩ := ho
    exact ⟨kz, hkz, by rw [← ho]; simp⟩

/-- C5 witness: the amended theorem applied to the top/bottom/wall rings
in meters. -/
theorem c5_min_tracking_witness :
    (∀ r ∈ exRings, qualifies r = true → zCoord r ≤ sentinel "m")
    ∧ (∃ r ∈ exRings, qualifies r = true)
    ∧ (((scanRings "m" exRings).2 ∈ (exRings.filter qualifies).map zCoord
        ∧ ∀ z ∈ (exRings.filter qualifies).map zCoord,
            (scanRings "m" exRings).2 ≤ z)
      ∧ ∀ o ∈ adjustRelative true (scanRings "m" exRings).2
            (makeFeatures [("name", "bldg")] (scanRings "m" exRings).1),
          ∃ kz ∈ (scanRings "m" exRings).1,
            o.height = listMax kz.2 - (scanRings "m" exRings).2) :=
  ⟨by decide, by decide,
    c5_min_tracking "m" [("name", "bldg")] exRings (by decide) (by decide)⟩

/-- C6: a feature with two building parts (max Z 10 and 15) whose minimum
observed Z is 5, converted with `relative_h=True` in meters, yields exactly
two output features with heights 5 and 10 respectively. -/
theorem c6_relative_heights_example :
    (multipatch_convertor ⟨some "epsg:2263", [twoPartFeature]⟩ id "m" true false
        "./" "output" "geojson").result
      = .ok ⟨some ⟨some "epsg:4326",
          [⟨[("name", "two")], 5, [(0, 0), (1, 0), (0, 1), (0, 0)]⟩,
           ⟨[("name", "two")], 10, [(10, 0), (11, 0), (10, 1), (10, 0)]⟩]⟩, []⟩ := by
  simp only [multipatch_convertor, processFeatures, processFeature, scanRings,
    scanStep, sentinel, twoPartFeature, aBotRing, aTopRing, bBotRing, bTopRing,
    List.foldl, makeFeatures, adjustRelative, convertUnits, Proc.pure, Proc.bind,
    to_crs, saveOrReturn, List.map]
  norm_num [qualifies, zCoord, xyOf, insertPart, listMax]
  simp

/-- C7: a single qualifying ring at constant Z = 100 with feet input and
`relative_h=False` yields one output of height 100 × 0.3048 = 30.48;
in general, with `z_unit_in="ft"` and `relative_h=False` the emitted
heights are exactly the meters-run heights multiplied by 0.3048, and with
`z_unit_in="m"` the unit-conversion step leaves the heights of the grouped
features untouched. -/
theorem c7_feet_times_03048 :
    ((multipatch_convertor gdfFt id "ft" false false "./" "output" "geojson").result
      = .ok ⟨some ⟨some "epsg:4326",
          [⟨[("name", "ft")], 762 / 25, [(0, 0), (1, 0), (0, 1), (0, 0)]⟩]⟩, []⟩)
    ∧ (∀ (props : List (String × String)) (rings : List Ring),
        resultHeights (processFeature "ft" false ⟨props, rings⟩)
          = (resultHeights (processFeature "m" false ⟨props, rings⟩)).map
              (fun h => h * (3048 / 10000 : ℚ)))
    ∧ (∀ (props : List (String × String)) (rings : List Ring),
        (processFeature "m" false ⟨props, rings⟩).result
          = .ok (makeFeatures props (scanRings "m" rings).1)) := by
  refine ⟨?_, ?_, fun props rings => rfl⟩
  · simp only [multipatch_convertor, processFeatures, processFeature, scanRings,
      scanStep, sentinel, gdfFt, ftRing, List.foldl, makeFeatures, adjustRelative,
      convertUnits, Proc.pure, Proc.bind, to_crs, saveOrReturn, List.map]
    norm_num [qualifies, zCoord, xyOf, insertPart, listMax]
  · intro props rings
    have hparts : (scanRings "ft" rings).1 = (scanRings "m" rings).1 := by
      rw [scanRings, scanRings]
      exact scan_parts_irrel_min rings [] (sentinel "ft") (sentinel "m")
    simp only [processFeature, adjustRelative, convertUnits, resultHeights,
      Proc.pure, hparts]
    simp [makeFeatures, List.map_map]

theorem saveOrReturn_ok_shape (save : Bool) (path fn fmt : String) (g : OutGDF)
    (out : ConvOutput) (h : (saveOrReturn save path fn fmt g).result = .ok out) :
    (∀ g0, out.returned = some g0 → g0 = g) ∧ ∀ sf ∈ out.files, sf.gdf = g := by
  by_cases hs : save
  · by_cases h1 : fmt = "geojson"
    · simp only [saveOrReturn, hs, h1, if_pos, if_true, Proc.pure] at h
      obtain rfl : (⟨none, [⟨path ++ fn ++ ".geojson", "GeoJSON", g⟩]⟩ : ConvOutput)
          = out := by simpa using h
      constructor
      · intro g0 hg0; simp at hg0
      · intro sf hsf; simp at hsf; rw [hsf]
    · by_cases h2 : fmt = "shp"
      · simp only [saveOrReturn, hs, h1, h2, if_pos, if_true, if_neg, if_false,
          Proc.pure] at h
        obtain rfl : (⟨none, [⟨path ++ fn ++ ".shp", "ESRI Shapefile", g⟩]⟩ : ConvOutput)
            = out := by simpa using h
        constructor
        · intro g0 hg0; simp at hg0
        · intro sf hsf; simp at hsf; rw [hsf]
      · simp [saveOrReturn, hs, h1, h2, Proc.bind, Proc.throw] at h
  · simp only [saveOrReturn, hs, if_neg, if_false, Bool.false_eq_true,
      not_false_eq_true, Proc.pure] at h
    obtain rfl : (⟨some g, []⟩ : ConvOutput) = out := by simpa using h
    constructor
    · intro g0 hg0; simp at hg0; rw [hg0]
    · intro sf hsf; simp at hsf

/-- C8: whenever the conversion produces a result — returned in memory or
written to a file — that GeoDataFrame has been reprojected to EPSG:4326,
whatever the input CRS was. -/
theorem c8_output_always_epsg4326 (gdf : GeoDataFrame)
    (transform : Coord × Coord → Coord × Coord) (zu : String) (rel save : Bool)
    (path fn fmt : String) (out : ConvOutput)
    (h : (multipatch_convertor gdf transform zu rel save path fn fmt).result
        = .ok out) :
    (∀ g, out.returned = some g → g.crs = some "epsg:4326")
    ∧ ∀ sf ∈ out.files, sf.gdf.crs = some "epsg:4326" := by
  unfold multipatch_convertor at h
  cases hp : (processFeatures zu rel gdf.features).result with
  | error e =>
      rw [Proc.bind_of_error _ hp] at h
      simp at h
  | ok fl =>
      rw [Proc.bind_of_ok _ hp] at h
      have h' : (saveOrReturn save path fn fmt
          (to_crs transform "epsg:4326" ⟨gdf.crs, fl⟩)).result = .ok out := h
      have hshape := saveOrReturn_ok_shape save path fn fmt _ out h'
      refine ⟨fun g hg => ?_, fun sf hsf => ?_⟩
      · rw [hshape.1 g hg]; rfl
      · rw [hshape.2 sf hsf]; rfl

/-- C8 witness: the theorem applied to a concrete successful call. -/
theorem c8_output_always_epsg4326_witness :
    ((multipatch_convertor gdfEmpty id "m" false false "./" "output" "geojson").result
      = .ok ⟨some ⟨some "epsg:4326", []⟩, []⟩)
    ∧ ((∀ g, (⟨some ⟨some "epsg:4326", []⟩, []⟩ : ConvOutput).returned = some g →
          g.crs = some "epsg:4326")
      ∧ ∀ sf ∈ (⟨some ⟨some "epsg:4326", []⟩, []⟩ : ConvOutput).files,
          sf.gdf.crs = some "epsg:4326") :=
  ⟨by decide,
    c8_output_always_epsg4326 gdfEmpty id "m" false false "./" "output" "geojson"
      ⟨some ⟨some "epsg:4326", []⟩, []⟩ (by decide)⟩

/-- C9: no execution of the converter ever prints a diagnostic message: the
`print` statements after the two `raise` statements are unreachable, since
the raise aborts the call first, so the printed-output log of every run is
empty. -/
theorem c9_diagnostics_never_printed (gdf : GeoDataFrame)
    (transform : Coord × Coord → Coord × Coord) (zu : String) (rel save : Bool)
    (path fn fmt : String) :
    (multipatch_convertor gdf transform zu rel save path fn fmt).log = [] := by
  unfold multipatch_convertor
  cases hp : (processFeatures zu rel gdf.features).result with
  | error e =>
      rw [Proc.bind_of_error _ hp]
      exact processFeatures_log zu rel gdf.features
  | ok fl =>
      rw [Proc.bind_of_ok _ hp]
      simp [processFeatures_log, saveOrReturn_log]

/-- C10 counterexample: a call with `save=True` and a valid format but an
invalid height unit on a nonempty collection raises `wrongUnits` — it
neither writes a file nor returns `None` normally, refuting the claim for
"every call with save=True and a valid format". -/
theorem c10_counterexample :
    (multipatch_convertor gdfEx id "yd" false true "./" "output" "geojson").result
      = .error .wrongUnits := by decide

/-- C10 (amended): for every call with a valid height unit, if `save=True`
and the format is "geojson" or "shp" the call writes exactly one file and
returns `None`, and a GeoDataFrame is returned if and only if `save=False`. -/
theorem c10_save_writes_return_iff (gdf : GeoDataFrame)
    (transform : Coord × Coord → Coord × Coord) (zu : String) (rel save : Bool)
    (path fn fmt : String) (hu : zu = "m" ∨ zu = "ft") :
    (save = true → (fmt = "geojson" ∨ fmt = "shp") →
      ∃ sf : SavedFile,
        (multipatch_convertor gdf transform zu rel save path fn fmt).result
          = .ok ⟨none, [sf]⟩)
    ∧ ∀ out, (multipatch_convertor gdf transform zu rel save path fn fmt).result
          = .ok out → (out.returned.isSome ↔ save = false) := by
  obtain ⟨outs, houts⟩ := processFeatures_ok zu rel hu gdf.features
  have hres : (multipatch_convertor gdf transform zu rel save path fn fmt).result
      = (saveOrReturn save path fn fmt
          (to_crs transform "epsg:4326" ⟨gdf.crs, outs⟩)).result := by
    unfold multipatch_convertor
    rw [Proc.bind_of_ok _ houts]
  constructor
  · intro hs hf
    subst hs
    rcases hf with hf | hf <;> subst hf
    · refine ⟨⟨path ++ fn ++ ".geojson", "GeoJSON",
        to_crs transform "epsg:4326" ⟨gdf.crs, outs⟩⟩, ?_⟩
      rw [hres]; simp [saveOrReturn, Proc.pure]
    · refine ⟨⟨path ++ fn ++ ".shp", "ESRI Shapefile",
        to_crs transform "epsg:4326" ⟨gdf.crs, outs⟩⟩, ?_⟩
      rw [hres]; simp [saveOrReturn, Proc.pure]
  · intro out hout
    rw [hres] at hout
    by_cases hs : save
    · by_cases h1 : fmt = "geojson"
      · simp only [saveOrReturn, hs, h1, if_pos, if_true, Proc.pure] at hout
        obtain rfl : (⟨none, [_]⟩ : ConvOutput) = out := by simpa using hout
        simp [hs]
      · by_cases h2 : fmt = "shp"
        · simp only [saveOrReturn, hs, h1, h2, if_pos, if_true, if_neg, if_false,
            Proc.pure] at hout
          obtain rfl : (⟨none, [_]⟩ : ConvOutput) = out := by simpa using hout
          simp [hs]
        · simp [saveOrReturn, hs, h1, h2, Proc.bind, Proc.throw] at hout
    · simp only [saveOrReturn, hs, if_neg, if_false, Bool.false_eq_true,
        not_false_eq_true, Proc.pure] at hout
      obtain rfl : (⟨some (to_crs transform "epsg:4326" ⟨gdf.crs, outs⟩), []⟩
          : ConvOutput) = out := by simpa using hout
      simp [hs]

/-- C10 witness: the amended theorem applied to a concrete save call. -/
theorem c10_save_writes_return_iff_witness :
    (("m" : String) = "m" ∨ ("m" : String) = "ft")
    ∧ ((true = true → (("geojson" : String) = "geojson" ∨ ("geojson" : String) = "shp") →
        ∃ sf : SavedFile,
          (multipatch_convertor gdfEx id "m" false true "./" "output" "geojson").result
            = .ok ⟨none, [sf]⟩)
      ∧ ∀ out, (multipatch_convertor gdfEx id "m" false true "./" "output" "geojson").result
            = .ok out → (out.returned.isSome ↔ true = false)) :=
  ⟨Or.inl rfl,
    c10_save_writes_return_iff gdfEx id "m" false true "./" "output" "geojson"
      (Or.inl rfl)⟩

end MPC
